import Mathlib

set_option maxRecDepth 8192

/-!
Verification of the DUNE repository fragment: the `Actuators/AMC` serial
motor-controller task, the `Vision/UI2210MGL` camera task and the
`DUNE::Tasks::Entity` interface.  Each C++ function that a claim depends on
is embedded as an executable Lean definition; machine integers are `Nat`/`Int`
with explicit `% 256` where 8-bit truncation matters, serial output is a list
of byte values, and the stateful main loop is a step function folded over an
input trace.
-/

namespace AMC

/-- Modelled from the spec: one shift step of the CRC-8 routine
(`DUNE::Algorithms::CRC8`, whose source is not under `src/`): the running
8-bit value is shifted left once, xor-ing in the polynomial when the top bit
was set ("one trailing raw CRC-8 byte"). -/
def crc8Shift (poly v : Nat) : Nat :=
  if 128 ≤ v then ((v * 2) ^^^ poly) % 256 else (v * 2) % 256

/-- Modelled from the spec: `CRC8::putByte` — xor the byte into the running
value, then shift eight times. -/
def crc8PutByte (poly value b : Nat) : Nat :=
  (crc8Shift poly)^[8] ((value ^^^ b) % 256)

/-- Modelled from the spec: `CRC8::putArray` starting from the initial value
0 (the task constructs `CRC8 crc(c_poly)` with the default initial value). -/
def crc8 (poly : Nat) (bs : List Nat) : Nat :=
  bs.foldl (crc8PutByte poly) 0

/-- ASCII byte values of a string (the task's `sprintf` buffers). -/
def strBytes (s : String) : List Nat :=
  s.data.map Char.toNat

/-- `static const uint8_t c_poly = 0x00;` (Task.cpp line 43). -/
def c_poly : Nat := 0

/-- The `AmcMessages` enum of Task.cpp (lines 46–56). -/
inductive AmcMessages
  | RPM
  | TEMPERATURE
  | PWR
  | STATE
deriving DecidableEq, Repr

/-- `Task::setRPM` (Task.cpp lines 263–277): format `"@S,%d,%d,*"`, compute
the CRC-8 over `strlen(m_msg) - 1` bytes (all bytes but the final one) and
write the message followed by the single checksum byte.  The returned value
is the full byte sequence written to the serial port. -/
def setRPM (motor rpm : Int) : List Nat :=
  let msg := strBytes ("@S," ++ toString motor ++ "," ++ toString rpm ++ ",*")
  let csum := crc8 c_poly (msg.take (msg.length - 1))
  msg ++ [csum]

/-- `Task::readParameterAMC` (Task.cpp lines 318–364): four identical
branches differing only in the field literal (`rpm`/`tmp`/`pwr`/`sta`),
each formatting `"@R,%d,<field>,*"`, computing the CRC-8 over
`strlen(m_msg) - 1` bytes and writing message then checksum byte. -/
def readParameterAMC (motor : Int) (fname : AmcMessages) : List Nat :=
  match fname with
  | AmcMessages.RPM =>
      let msg := strBytes ("@R," ++ toString motor ++ ",rpm,*")
      msg ++ [crc8 c_poly (msg.take (msg.length - 1))]
  | AmcMessages.TEMPERATURE =>
      let msg := strBytes ("@R," ++ toString motor ++ ",tmp,*")
      msg ++ [crc8 c_poly (msg.take (msg.length - 1))]
  | AmcMessages.PWR =>
      let msg := strBytes ("@R," ++ toString motor ++ ",pwr,*")
      msg ++ [crc8 c_poly (msg.take (msg.length - 1))]
  | AmcMessages.STATE =>
      let msg := strBytes ("@R," ++ toString motor ++ ",sta,*")
      msg ++ [crc8 c_poly (msg.take (msg.length - 1))]

/-- The field literal used by each `readParameterAMC` branch. -/
def fieldStr (fname : AmcMessages) : String :=
  match fname with
  | AmcMessages.RPM => "rpm"
  | AmcMessages.TEMPERATURE => "tmp"
  | AmcMessages.PWR => "pwr"
  | AmcMessages.STATE => "sta"

/-- Written from the spec's words, for comparison with the code: a framed
command is the ASCII bytes of the command string followed by one CRC-8 byte
computed over all bytes before the trailing terminator (`dropLast`: the
terminator is excluded from the checksum input). -/
def specFramed (s : String) : List Nat :=
  strBytes s ++ [crc8 c_poly (strBytes s).dropLast]

theorem take_length_sub_one_eq_dropLast (l : List Nat) :
    l.take (l.length - 1) = l.dropLast := by
  rw [List.dropLast_eq_take]

theorem strBytes_append (s t : String) :
    strBytes (s ++ t) = strBytes s ++ strBytes t := by
  simp [strBytes, String.data_append]

theorem strBytes_last_star (s : String) :
    (strBytes (s ++ ",*")).getLast? = some 42 := by
  rw [strBytes_append]
  have h2 : strBytes ",*" = [44, 42] := by decide
  rw [h2, show (44 :: [42] : List Nat) = [44] ++ [42] from rfl, ← List.append_assoc]
  exact List.getLast?_concat _

end AMC

/-- C3: for every motor id and value, `setRPM` writes exactly the ASCII bytes
`"@S,<id>,<value>,*"` followed by one CRC-8 byte computed over all bytes
before the trailing `*` (the terminator, which is the last command byte, is
excluded from the checksum input), and for every field `readParameterAMC`
likewise writes `"@R,<id>,<field>,*"` (field one of rpm/tmp/pwr/sta)
followed by one CRC-8 byte computed the same way. -/
theorem amc_outbound_framing (motor value : Int) (fname : AMC.AmcMessages) :
    AMC.setRPM motor value
      = AMC.specFramed ("@S," ++ toString motor ++ "," ++ toString value ++ ",*") ∧
    AMC.readParameterAMC motor fname
      = AMC.specFramed ("@R," ++ toString motor ++ "," ++ AMC.fieldStr fname ++ ",*") ∧
    (AMC.strBytes ("@S," ++ toString motor ++ "," ++ toString value ++ ",*")).getLast?
      = some (Char.toNat (Char.ofNat 42)) ∧
    (AMC.strBytes ("@R," ++ toString motor ++ "," ++ AMC.fieldStr fname ++ ",*")).getLast?
      = some (Char.toNat (Char.ofNat 42)) := by
  refine ⟨?_, ?_, ?_, ?_⟩
  · simp only [AMC.setRPM, AMC.specFramed, AMC.take_length_sub_one_eq_dropLast]
  · cases fname
    case RPM =>
      simp only [AMC.readParameterAMC, AMC.specFramed, AMC.fieldStr,
        AMC.take_length_sub_one_eq_dropLast, AMC.strBytes_append]
      have h : AMC.strBytes ",rpm,*"
          = AMC.strBytes "," ++ AMC.strBytes "rpm" ++ AMC.strBytes ",*" := by decide
      simp [h]
    case TEMPERATURE =>
      simp only [AMC.readParameterAMC, AMC.specFramed, AMC.fieldStr,
        AMC.take_length_sub_one_eq_dropLast, AMC.strBytes_append]
      have h : AMC.strBytes ",tmp,*"
          = AMC.strBytes "," ++ AMC.strBytes "tmp" ++ AMC.strBytes ",*" := by decide
      simp [h]
    case PWR =>
      simp only [AMC.readParameterAMC, AMC.specFramed, AMC.fieldStr,
        AMC.take_length_sub_one_eq_dropLast, AMC.strBytes_append]
      have h : AMC.strBytes ",pwr,*"
          = AMC.strBytes "," ++ AMC.strBytes "pwr" ++ AMC.strBytes ",*" := by decide
      simp [h]
    case STATE =>
      simp only [AMC.readParameterAMC, AMC.specFramed, AMC.fieldStr,
        AMC.take_length_sub_one_eq_dropLast, AMC.strBytes_append]
      have h : AMC.strBytes ",sta,*"
          = AMC.strBytes "," ++ AMC.strBytes "sta" ++ AMC.strBytes ",*" := by decide
      simp [h]
  · rw [show ("@S," ++ toString motor ++ "," ++ toString value ++ ",*")
        = ("@S," ++ toString motor ++ "," ++ toString value) ++ ",*" by
          simp [String.append_assoc]]
    exact AMC.strBytes_last_star _
  · rw [show ("@R," ++ toString motor ++ "," ++ AMC.fieldStr fname ++ ",*")
        = ("@R," ++ toString motor ++ "," ++ AMC.fieldStr fname) ++ ",*" by
          simp [String.append_assoc]]
    exact AMC.strBytes_last_star _

namespace AMC

/-- Entity operational state as the AMC task sets it inside `onMain`:
`ESTA_NORMAL`/`CODE_ACTIVE` at loop entry (line 381), or `ESTA_ERROR` with a
message (line 410). -/
inductive EntState
  | normalActive
  | errorState (msg : String)
deriving DecidableEq, Repr

/-- The payload of a thrown `RestartNeeded` (line 411): reason, delay in
microseconds, and whether the whole system (rather than only the task) is to
be restarted. -/
structure RestartReq where
  reason : String
  delay_usec : Nat
  restart_system : Bool
deriving DecidableEq, Repr

/-- `static const int c_sleep_time = 250000;` (Task.cpp line 44), in
microseconds. -/
def c_sleep_time : Nat := 250000

/-- Timeout of `m_poll.poll(0.5)` (line 387), in microseconds. -/
def pollTimeout : Nat := 500000

/-- Timeout of `waitForMessages(0.75)` (line 403), in microseconds. -/
def waitTimeout : Nat := 750000

/-- Watchdog top `m_wdog.setTop(10.0)` (line 200), in microseconds. -/
def wdogTop : Nat := 10000000

/-- State of the AMC task observed by the claims: the round-robin motor
counter, the entity operational state, the watchdog timer (microseconds since
the last `m_wdog.reset()`), total elapsed loop time, the sequence of byte
frames written to the serial port, and the pending `RestartNeeded`, if one
was thrown. -/
structure AmcState where
  m_cnt_motor : Nat
  entity : EntState
  wdogElapsed : Nat
  totalTime : Nat
  writes : List (List Nat)
  restart : Option RestartReq
deriving DecidableEq, Repr

/-- Modelled from the spec: watchdog expiry (`Time::Counter`, not under
`src/`; "deadline timer detecting loss of periodic activity") — the timer
overflows when the time since the last reset has reached the top. -/
def wdogOverflow (s : AmcState) : Bool :=
  decide (wdogTop ≤ s.wdogElapsed)

/-- Lines 408–412: the overflow check at the bottom of each loop iteration —
on overflow the entity state becomes Error and `RestartNeeded("Watchdog
Overflow", 2.0, false)` is thrown. -/
def wdogCheck (s : AmcState) : AmcState :=
  if wdogOverflow s then
    { s with entity := EntState.errorState "Watchdog Overflow",
             restart := some ⟨"Watchdog Overflow", 2000000, false⟩ }
  else s

/-- One iteration of the `while (!stopping())` loop of `Task::onMain`
(lines 385–412).  Event `some t`: the multiplexer reports readiness after
`t` microseconds and `checkSerialPort` consumes one byte (the byte itself and
the parser state are not modelled — no claim depends on them), then
`m_wdog.reset()`.  Event `none`: the poll times out; the task writes one RPM
read request for motor `m_cnt_motor`, sleeps, dispatches the cached rpm on
the bus (`dispatchRpm`, a bus publish that does not touch the modelled
state), advances the counter, waits for messages and resets the watchdog.
Once a `RestartNeeded` is pending the loop has exited, so the step is the
identity. -/
def stepAMC (s : AmcState) (ev : Option Nat) : AmcState :=
  if s.restart.isSome then s
  else
    match ev with
    | some t =>
        let s1 := { s with totalTime := s.totalTime + t,
                           wdogElapsed := s.wdogElapsed + t }
        let s2 := { s1 with wdogElapsed := 0 }
        wdogCheck s2
    | none =>
        let s1 := { s with totalTime := s.totalTime + pollTimeout,
                           wdogElapsed := s.wdogElapsed + pollTimeout }
        let s2 := { s1 with writes :=
          s1.writes ++ [readParameterAMC (s1.m_cnt_motor : Int) AmcMessages.RPM] }
        let s3 := { s2 with totalTime := s2.totalTime + c_sleep_time,
                            wdogElapsed := s2.wdogElapsed + c_sleep_time }
        let cnt := (s3.m_cnt_motor + 1) % 256
        let s4 := { s3 with m_cnt_motor := if 4 ≤ cnt then 0 else cnt }
        let s5 := { s4 with totalTime := s4.totalTime + waitTimeout,
                            wdogElapsed := s4.wdogElapsed + waitTimeout }
        let s6 := { s5 with wdogElapsed := 0 }
        wdogCheck s6

/-- State at the top of `onMain` (lines 381–383): entity Normal/Active,
motor counter zeroed, watchdog just armed (`setTop` during resource
initialization), nothing written, no restart pending. -/
def amcInitState : AmcState :=
  { m_cnt_motor := 0, entity := EntState.normalActive, wdogElapsed := 0,
    totalTime := 0, writes := [], restart := none }

/-- `Task::stopAllMotor` (lines 305–316): a zero-rpm `setRPM` command to
each of the four motors, in order. -/
def stopAllMotor (writes : List (List Nat)) : List (List Nat) :=
  writes ++ [setRPM 0 0, setRPM 1 0, setRPM 2 0, setRPM 3 0]

/-- `Task::onMain` over a finite event trace: the loop runs once per event
(the trace ends when `stopping()` becomes true); if the loop exited normally
— rather than by a thrown `RestartNeeded` — `stopAllMotor()` runs (line
414). -/
def onMain (tr : List (Option Nat)) : AmcState :=
  let s := tr.foldl stepAMC amcInitState
  if s.restart.isSome then s else { s with writes := stopAllMotor s.writes }

theorem wdogCheck_of_zero (s : AmcState) (h : s.wdogElapsed = 0) :
    wdogCheck s = s := by
  simp [wdogCheck, wdogOverflow, h, wdogTop]

theorem stepAMC_restart (s : AmcState) (ev : Option Nat) :
    (stepAMC s ev).restart = s.restart := by
  by_cases hr : s.restart.isSome
  · simp [stepAMC, hr]
  · cases ev <;> simp [stepAMC, hr, wdogCheck, wdogOverflow, wdogTop]

theorem stepAMC_entity (s : AmcState) (ev : Option Nat) :
    (stepAMC s ev).entity = s.entity := by
  by_cases hr : s.restart.isSome
  · simp [stepAMC, hr]
  · cases ev <;> simp [stepAMC, hr, wdogCheck, wdogOverflow, wdogTop]

theorem foldl_stepAMC_restart (tr : List (Option Nat)) (s : AmcState) :
    (tr.foldl stepAMC s).restart = s.restart := by
  induction tr generalizing s with
  | nil => rfl
  | cons ev tl ih => rw [List.foldl_cons, ih, stepAMC_restart]

theorem foldl_stepAMC_entity (tr : List (Option Nat)) (s : AmcState) :
    (tr.foldl stepAMC s).entity = s.entity := by
  induction tr generalizing s with
  | nil => rfl
  | cons ev tl ih => rw [List.foldl_cons, ih, stepAMC_entity]

end AMC

namespace AMC

theorem stepAMC_cnt_lt (s : AmcState) (ev : Option Nat)
    (h : s.m_cnt_motor < 4) : (stepAMC s ev).m_cnt_motor < 4 := by
  by_cases hr : s.restart.isSome
  · simpa [stepAMC, hr] using h
  · cases ev with
    | some t => simpa [stepAMC, hr, wdogCheck, wdogOverflow, wdogTop] using h
    | none =>
        have hm : (s.m_cnt_motor + 1) % 256 = s.m_cnt_motor + 1 :=
          Nat.mod_eq_of_lt (by omega)
        simp [stepAMC, hr, wdogCheck, wdogOverflow, wdogTop, hm]
        split <;> omega

theorem foldl_stepAMC_cnt_lt (tr : List (Option Nat)) (s : AmcState)
    (h : s.m_cnt_motor < 4) : (tr.foldl stepAMC s).m_cnt_motor < 4 := by
  induction tr generalizing s with
  | nil => exact h
  | cons ev tl ih => exact ih _ (stepAMC_cnt_lt s ev h)

theorem stepAMC_none_writes (s : AmcState) (hr : s.restart = none) :
    (stepAMC s none).writes
      = s.writes ++ [readParameterAMC (s.m_cnt_motor : Int) AmcMessages.RPM] := by
  simp [stepAMC, hr, wdogCheck, wdogOverflow, wdogTop]

theorem stepAMC_none_cnt (s : AmcState) (hr : s.restart = none)
    (h : s.m_cnt_motor < 4) :
    (stepAMC s none).m_cnt_motor = (s.m_cnt_motor + 1) % 4 := by
  have hm : (s.m_cnt_motor + 1) % 256 = s.m_cnt_motor + 1 :=
    Nat.mod_eq_of_lt (by omega)
  simp [stepAMC, hr, wdogCheck, wdogOverflow, wdogTop, hm]
  split <;> omega

/-- `Task::consume(const IMC::SetThrusterActuation*)` (lines 215–232): id 0
drives motors 0 and 1, id 1 drives motors 2 and 3, any other id does
nothing.  `value` is the message value after the C implicit conversion to
`int` (the serial writes are the only state the handler touches). -/
def consume (id : Nat) (value : Int) (writes : List (List Nat)) :
    List (List Nat) :=
  if id = 0 then writes ++ [setRPM 0 value, setRPM 1 value]
  else if id = 1 then writes ++ [setRPM 2 value, setRPM 3 value]
  else writes

end AMC

/-- C1 (failing input for the watchdog claim): a Main-phase run where the
serial device stays silent for eleven consecutive poll timeouts — more than
16 s, well past the 10 s watchdog top — yet the watchdog never overflows:
`m_wdog.reset()` runs in both loop branches (lines 390 and 404) right before
the overflow check, so no `RestartNeeded` is thrown and the entity state
stays Normal/Active instead of becoming Error. -/
theorem amc_watchdog_silence_no_restart :
    AMC.wdogTop
        < ((List.replicate 11 (none : Option Nat)).foldl
            AMC.stepAMC AMC.amcInitState).totalTime ∧
    ((List.replicate 11 (none : Option Nat)).foldl
        AMC.stepAMC AMC.amcInitState).restart = none ∧
    ((List.replicate 11 (none : Option Nat)).foldl
        AMC.stepAMC AMC.amcInitState).entity = AMC.EntState.normalActive := by
  refine ⟨by decide, ?_, ?_⟩
  · rw [AMC.foldl_stepAMC_restart]
    rfl
  · rw [AMC.foldl_stepAMC_entity]
    rfl

/-- C8: throughout the main loop the motor counter stays in 0..3, and every
iteration in which the multiplexer reports no readiness issues exactly one
read request (an RPM read for motor `m_cnt_motor`) and then advances the
counter by one modulo 4. -/
theorem amc_motor_counter_round_robin (tr : List (Option Nat))
    (s : AMC.AmcState) :
    (tr.foldl AMC.stepAMC AMC.amcInitState).m_cnt_motor < 4 ∧
    (s.restart = none → s.m_cnt_motor < 4 →
      (AMC.stepAMC s none).writes
          = s.writes
            ++ [AMC.readParameterAMC (s.m_cnt_motor : Int) AMC.AmcMessages.RPM] ∧
      (AMC.stepAMC s none).m_cnt_motor = (s.m_cnt_motor + 1) % 4) := by
  refine ⟨AMC.foldl_stepAMC_cnt_lt tr _ (by decide), fun hr h => ?_⟩
  exact ⟨AMC.stepAMC_none_writes s hr, AMC.stepAMC_none_cnt s hr h⟩

/-- Witness for C8 at a concrete state: the initial state (counter 0, no
pending restart) after one quiet iteration. -/
theorem amc_motor_counter_round_robin_witness :
    (([some 3, none] : List (Option Nat)).foldl
        AMC.stepAMC AMC.amcInitState).m_cnt_motor < 4 ∧
    (AMC.stepAMC AMC.amcInitState none).writes
        = AMC.amcInitState.writes
          ++ [AMC.readParameterAMC (AMC.amcInitState.m_cnt_motor : Int)
                AMC.AmcMessages.RPM] ∧
    (AMC.stepAMC AMC.amcInitState none).m_cnt_motor
        = (AMC.amcInitState.m_cnt_motor + 1) % 4 :=
  ⟨(amc_motor_counter_round_robin [some 3, none] AMC.amcInitState).1,
   (amc_motor_counter_round_robin [] AMC.amcInitState).2 rfl (by decide)⟩

/-- C9: an `IMC::SetThrusterActuation` with id 0 sends the value to motors 0
then 1; id 1 sends it to motors 2 then 3; any other id writes nothing and
changes nothing. -/
theorem amc_thruster_routing (id : Nat) (value : Int)
    (writes : List (List Nat)) :
    (id = 0 → AMC.consume id value writes
        = writes ++ [AMC.setRPM 0 value, AMC.setRPM 1 value]) ∧
    (id = 1 → AMC.consume id value writes
        = writes ++ [AMC.setRPM 2 value, AMC.setRPM 3 value]) ∧
    (id ≠ 0 → id ≠ 1 → AMC.consume id value writes = writes) := by
  refine ⟨fun h0 => ?_, fun h1 => ?_, fun h0 h1 => ?_⟩
  · simp [AMC.consume, h0]
  · simp [AMC.consume, h1]
  · simp [AMC.consume, h0, h1]

/-- Witness for C9 at concrete inputs: id 0 routes to motors 0 and 1, id 2
is ignored. -/
theorem amc_thruster_routing_witness :
    AMC.consume 0 5 [] = [] ++ [AMC.setRPM 0 5, AMC.setRPM 1 5] ∧
    AMC.consume 2 5 [[1]] = [[1]] :=
  ⟨(amc_thruster_routing 0 5 []).1 rfl,
   (amc_thruster_routing 2 5 [[1]]).2.2 (by decide) (by decide)⟩

/-- C10: whenever the main loop exits because a stop was requested (rather
than by a thrown restart — which in fact never happens), `stopAllMotor` runs
before `onMain` returns, appending the zero-rpm command `"@S,<motor>,0,*"`
plus its CRC-8 byte for each of the four motors 0, 1, 2, 3 in order. -/
theorem amc_stop_writes_zero_rpm (tr : List (Option Nat)) :
    (AMC.onMain tr).writes
      = (tr.foldl AMC.stepAMC AMC.amcInitState).writes
        ++ [AMC.specFramed "@S,0,0,*", AMC.specFramed "@S,1,0,*",
            AMC.specFramed "@S,2,0,*", AMC.specFramed "@S,3,0,*"] := by
  have hres : (tr.foldl AMC.stepAMC AMC.amcInitState).restart = none := by
    rw [AMC.foldl_stepAMC_restart]
    rfl
  have h0 : AMC.setRPM 0 0 = AMC.specFramed "@S,0,0,*" := by decide
  have h1 : AMC.setRPM 1 0 = AMC.specFramed "@S,1,0,*" := by decide
  have h2 : AMC.setRPM 2 0 = AMC.specFramed "@S,2,0,*" := by decide
  have h3 : AMC.setRPM 3 0 = AMC.specFramed "@S,3,0,*" := by decide
  simp [AMC.onMain, hres, AMC.stopAllMotor, h0, h1, h2, h3]

namespace Tasks

/-- `IMC::EntityActivationState` values used by `DUNE::Tasks::Entity`
(part_000 lines 49 and 110–136). -/
inductive EAS
  | EAS_INACTIVE
  | EAS_ACT_IP
  | EAS_ACTIVE
  | EAS_DEACT_IP
deriving DecidableEq, Repr

/-- `Entity::NextActivationState` (part_000 lines 169–177): the single
pending next-state slot. -/
inductive NextActivationState
  | NAS_SAME
  | NAS_ACTIVE
  | NAS_INACTIVE
deriving DecidableEq, Repr

/-- `IMC::EntityState` operational states (spec §3: Boot/Normal/Error/Fault). -/
inductive StateEnum
  | ESTA_BOOT
  | ESTA_NORMAL
  | ESTA_ERROR
  | ESTA_FAULT
deriving DecidableEq, Repr

/-- The observable fragment of `DUNE::Tasks::Entity` (part_000 lines
179–193): activation state with its pending slot, operational state with the
cached description code (-1 meaning none, line 188), and the ghost list of
outward entity-state reports actually emitted. -/
structure Entity where
  m_act_state : EAS
  m_next_act_state : NextActivationState
  m_entity_state : StateEnum
  m_entity_state_code : Int
  reports : List (StateEnum × Int)
deriving DecidableEq, Repr

/-- Modelled from the spec: `Entity::requestActivation` (declared at
part_000 line 140; the implementation is not under `src/`).  Per §4.1 and
§3: Inactive starts the Activating transition; if a transition is already in
flight the request overwrites the single pending next-state slot
(last-writer-wins coalescing, never queued); Active stays Active. -/
def requestActivation (e : Entity) : Entity :=
  match e.m_act_state with
  | EAS.EAS_INACTIVE =>
      { e with m_act_state := EAS.EAS_ACT_IP,
               m_next_act_state := NextActivationState.NAS_SAME }
  | EAS.EAS_ACTIVE => e
  | _ => { e with m_next_act_state := NextActivationState.NAS_ACTIVE }

/-- Modelled from the spec: `Entity::requestDeactivation` (declared at
part_000 line 144), symmetric to `requestActivation`. -/
def requestDeactivation (e : Entity) : Entity :=
  match e.m_act_state with
  | EAS.EAS_ACTIVE =>
      { e with m_act_state := EAS.EAS_DEACT_IP,
               m_next_act_state := NextActivationState.NAS_SAME }
  | EAS.EAS_INACTIVE => e
  | _ => { e with m_next_act_state := NextActivationState.NAS_INACTIVE }

/-- A caller-issued activation request. -/
inductive Req
  | act
  | deact
deriving DecidableEq, Repr

def applyRequest (e : Entity) (r : Req) : Entity :=
  match r with
  | Req.act => requestActivation e
  | Req.deact => requestDeactivation e

/-- The slot value a request leaves behind while a transition is in
flight. -/
def nasOf (r : Req) : NextActivationState :=
  match r with
  | Req.act => NextActivationState.NAS_ACTIVE
  | Req.deact => NextActivationState.NAS_INACTIVE

/-- Outcome of an in-flight transition. -/
inductive Outcome
  | success
  | failure
deriving DecidableEq, Repr

/-- Modelled from the spec: resolution of an in-flight transition
(`succeedActivation` / `failActivation` / `succeedDeactivation` /
`failDeactivation`, declared at part_000 lines 146–156).  Per §3 and §4.1
the strict cycle lands on the terminal state (failure reverts), the pending
slot is cleared, and then the retained request — if any — is acted on. -/
def resolveTransition (e : Entity) (o : Outcome) : Entity :=
  let base : EAS :=
    match e.m_act_state, o with
    | EAS.EAS_ACT_IP, Outcome.success => EAS.EAS_ACTIVE
    | EAS.EAS_ACT_IP, Outcome.failure => EAS.EAS_INACTIVE
    | EAS.EAS_DEACT_IP, Outcome.success => EAS.EAS_INACTIVE
    | EAS.EAS_DEACT_IP, Outcome.failure => EAS.EAS_ACTIVE
    | st, _ => st
  let cleared : Entity :=
    { e with m_act_state := base,
             m_next_act_state := NextActivationState.NAS_SAME }
  match e.m_next_act_state with
  | NextActivationState.NAS_SAME => cleared
  | NextActivationState.NAS_ACTIVE => requestActivation cleared
  | NextActivationState.NAS_INACTIVE => requestDeactivation cleared

theorem applyRequest_inflight (e : Entity) (r : Req)
    (hin : e.m_act_state = EAS.EAS_ACT_IP ∨ e.m_act_state = EAS.EAS_DEACT_IP) :
    applyRequest e r = { e with m_next_act_state := nasOf r } := by
  rcases hin with h | h <;> cases r <;>
    simp [applyRequest, requestActivation, requestDeactivation, nasOf, h]

theorem foldl_applyRequest_inflight (rs : List Req) (e : Entity) (r : Req)
    (hin : e.m_act_state = EAS.EAS_ACT_IP ∨ e.m_act_state = EAS.EAS_DEACT_IP)
    (hlast : rs.getLast? = some r) :
    rs.foldl applyRequest e = { e with m_next_act_state := nasOf r } := by
  induction rs generalizing e with
  | nil => simp at hlast
  | cons a tl ih =>
      cases tl with
      | nil =>
          simp at hlast
          subst hlast
          simpa using applyRequest_inflight e a hin
      | cons b tl2 =>
          have hlast2 : (b :: tl2).getLast? = some r := by
            simpa [List.getLast?_cons_cons] using hlast
          rw [List.foldl_cons, applyRequest_inflight e a hin]
          rw [ih { e with m_next_act_state := nasOf a } (by simpa using hin) hlast2]

end Tasks

/-- C2 (spec-modelled): while a transition is in flight, any sequence of
`requestActivation`/`requestDeactivation` calls leaves the activation state
untouched and the single pending next-state slot holding exactly the most
recent request (last-writer-wins, never queued); resolving the in-flight
transition then acts exactly as if only that most recent request had been
issued. -/
theorem entity_pending_slot_last_writer_wins (e : Tasks.Entity)
    (rs : List Tasks.Req) (r : Tasks.Req)
    (hin : e.m_act_state = Tasks.EAS.EAS_ACT_IP ∨
           e.m_act_state = Tasks.EAS.EAS_DEACT_IP)
    (hlast : rs.getLast? = some r) :
    (rs.foldl Tasks.applyRequest e).m_act_state = e.m_act_state ∧
    (rs.foldl Tasks.applyRequest e).m_next_act_state = Tasks.nasOf r ∧
    ∀ o, Tasks.resolveTransition (rs.foldl Tasks.applyRequest e) o
        = Tasks.resolveTransition (Tasks.applyRequest e r) o := by
  rw [Tasks.foldl_applyRequest_inflight rs e r hin hlast,
    Tasks.applyRequest_inflight e r hin]
  exact ⟨rfl, rfl, fun o => rfl⟩

/-- Witness for C2: an entity mid-activation receives an activation request
then a deactivation request; the slot retains only the deactivation. -/
theorem entity_pending_slot_last_writer_wins_witness :
    (([Tasks.Req.act, Tasks.Req.deact].foldl Tasks.applyRequest
        ⟨Tasks.EAS.EAS_ACT_IP, Tasks.NextActivationState.NAS_SAME,
         Tasks.StateEnum.ESTA_NORMAL, -1, []⟩).m_next_act_state
      = Tasks.nasOf Tasks.Req.deact) ∧
    Tasks.resolveTransition
        ([Tasks.Req.act, Tasks.Req.deact].foldl Tasks.applyRequest
          ⟨Tasks.EAS.EAS_ACT_IP, Tasks.NextActivationState.NAS_SAME,
           Tasks.StateEnum.ESTA_NORMAL, -1, []⟩) Tasks.Outcome.success
      = Tasks.resolveTransition
          (Tasks.applyRequest
            ⟨Tasks.EAS.EAS_ACT_IP, Tasks.NextActivationState.NAS_SAME,
             Tasks.StateEnum.ESTA_NORMAL, -1, []⟩ Tasks.Req.deact)
          Tasks.Outcome.success :=
  ⟨(entity_pending_slot_last_writer_wins
      ⟨Tasks.EAS.EAS_ACT_IP, Tasks.NextActivationState.NAS_SAME,
       Tasks.StateEnum.ESTA_NORMAL, -1, []⟩
      [Tasks.Req.act, Tasks.Req.deact] Tasks.Req.deact
      (Or.inl rfl) (by decide)).2.1,
   (entity_pending_slot_last_writer_wins
      ⟨Tasks.EAS.EAS_ACT_IP, Tasks.NextActivationState.NAS_SAME,
       Tasks.StateEnum.ESTA_NORMAL, -1, []⟩
      [Tasks.Req.act, Tasks.Req.deact] Tasks.Req.deact
      (Or.inl rfl) (by decide)).2.2 Tasks.Outcome.success⟩

namespace Tasks

/-- Modelled from the spec: `Entity::setState` (declared at part_000 lines
84–86; the implementation is not under `src/`).  Per §4.1 it updates the
operational state, caches the description code in `m_entity_state_code`
(part_000 line 188) and suppresses the duplicate outward report when
(state, code) is unchanged from the last report; it never fails (a total
function). -/
def setState (e : Entity) (state : StateEnum) (code : Nat) : Entity :=
  if e.m_entity_state = state ∧ e.m_entity_state_code = (code : Int) then e
  else
    { e with m_entity_state := state,
             m_entity_state_code := (code : Int),
             reports := e.reports ++ [(state, (code : Int))] }

end Tasks

/-- C5 (spec-modelled): calling `setState` twice in a row with an identical
(state, code) pair is observationally one call — the second call changes
nothing — and when the pair differs from the currently cached one the two
calls emit exactly one outward report; `setState` is a total function, so it
never fails. -/
theorem entity_setState_duplicate_suppressed (e : Tasks.Entity)
    (state : Tasks.StateEnum) (code : Nat) :
    Tasks.setState (Tasks.setState e state code) state code
        = Tasks.setState e state code ∧
    (¬(e.m_entity_state = state ∧ e.m_entity_state_code = (code : Int)) →
      (Tasks.setState (Tasks.setState e state code) state code).reports.length
          = e.reports.length + 1) := by
  constructor
  · by_cases h : e.m_entity_state = state ∧ e.m_entity_state_code = (code : Int)
    · simp [Tasks.setState, h]
    · simp [Tasks.setState, h]
  · intro h
    simp [Tasks.setState, h]

/-- Witness for C5: from a Boot entity with no cached code, two identical
`setState(Normal, 0)` calls leave one report. -/
theorem entity_setState_duplicate_suppressed_witness :
    Tasks.setState
        (Tasks.setState
          ⟨Tasks.EAS.EAS_INACTIVE, Tasks.NextActivationState.NAS_SAME,
           Tasks.StateEnum.ESTA_BOOT, -1, []⟩ Tasks.StateEnum.ESTA_NORMAL 0)
        Tasks.StateEnum.ESTA_NORMAL 0
      = Tasks.setState
          ⟨Tasks.EAS.EAS_INACTIVE, Tasks.NextActivationState.NAS_SAME,
           Tasks.StateEnum.ESTA_BOOT, -1, []⟩ Tasks.StateEnum.ESTA_NORMAL 0 ∧
    (Tasks.setState
        (Tasks.setState
          ⟨Tasks.EAS.EAS_INACTIVE, Tasks.NextActivationState.NAS_SAME,
           Tasks.StateEnum.ESTA_BOOT, -1, []⟩ Tasks.StateEnum.ESTA_NORMAL 0)
        Tasks.StateEnum.ESTA_NORMAL 0).reports.length = 0 + 1 :=
  ⟨(entity_setState_duplicate_suppressed
      ⟨Tasks.EAS.EAS_INACTIVE, Tasks.NextActivationState.NAS_SAME,
       Tasks.StateEnum.ESTA_BOOT, -1, []⟩ Tasks.StateEnum.ESTA_NORMAL 0).1,
   (entity_setState_duplicate_suppressed
      ⟨Tasks.EAS.EAS_INACTIVE, Tasks.NextActivationState.NAS_SAME,
       Tasks.StateEnum.ESTA_BOOT, -1, []⟩ Tasks.StateEnum.ESTA_NORMAL 0).2
     (by decide)⟩

namespace AMC

/-- The entity database: reserved (label, id) pairs in reservation order. -/
abbrev EntityDB := List (String × Nat)

/-- Modelled from the spec: `resolveEntity(label)`
(`Entities::EntityDataBase`, not under `src/`): the id reserved for a label,
if any; a missing label raises `NonexistentLabel`, modelled as `none`. -/
def resolveEntity (db : EntityDB) (label : String) : Option Nat :=
  match db with
  | [] => none
  | (l, id) :: rest => if l = label then some id else resolveEntity rest label

/-- Modelled from the spec: `reserveEntity(label)` — "allocates a stable id
for a label" (§4.1); the fresh id is the next unused slot. -/
def reserveEntity (db : EntityDB) (label : String) : EntityDB :=
  db ++ [(label, db.length)]

/-- `Task::onEntityReservation` of the AMC task (Task.cpp lines 157–173):
for each motor entity label, try `resolveEntity`; only when that fails with
`NonexistentLabel` call `reserveEntity`. -/
def onEntityReservation (labels : List String) (db : EntityDB) : EntityDB :=
  labels.foldl
    (fun d l =>
      match resolveEntity d l with
      | some _ => d
      | none => reserveEntity d l) db

theorem resolveEntity_append_of_some (db more : EntityDB) (x : String)
    (v : Nat) (h : resolveEntity db x = some v) :
    resolveEntity (db ++ more) x = some v := by
  induction db with
  | nil => simp [resolveEntity] at h
  | cons p rest ih =>
      obtain ⟨l, id⟩ := p
      by_cases hl : l = x
      · simpa [resolveEntity, hl] using h
      · rw [List.cons_append]
        simp only [resolveEntity, hl, if_false] at h ⊢
        exact ih h

theorem resolveEntity_append_single (db : EntityDB) (l : String) (n : Nat)
    (h : resolveEntity db l = none) :
    resolveEntity (db ++ [(l, n)]) l = some n := by
  induction db with
  | nil => simp [resolveEntity]
  | cons p rest ih =>
      obtain ⟨l1, id⟩ := p
      by_cases hl : l1 = l
      · simp [resolveEntity, hl] at h
      · rw [List.cons_append]
        simp only [resolveEntity, hl, if_false] at h ⊢
        exact ih h

theorem reservationStep_resolves (db : EntityDB) (l : String) :
    (resolveEntity
      (match resolveEntity db l with
        | some _ => db
        | none => reserveEntity db l) l).isSome = true := by
  cases h : resolveEntity db l with
  | some v => simp [h]
  | none => simp [reserveEntity, resolveEntity_append_single db l db.length h]

theorem onEntityReservation_preserves (labels : List String) (db : EntityDB)
    (x : String) (v : Nat) (h : resolveEntity db x = some v) :
    resolveEntity (onEntityReservation labels db) x = some v := by
  induction labels generalizing db with
  | nil => exact h
  | cons a tl ih =>
      rw [onEntityReservation, List.foldl_cons]
      cases ha : resolveEntity db a with
      | some w => exact ih db (by simpa [onEntityReservation, ha] using h)
      | none =>
          have h2 : resolveEntity (reserveEntity db a) x = some v :=
            resolveEntity_append_of_some db _ x v h
          simpa [onEntityReservation, ha] using ih (reserveEntity db a) h2

theorem onEntityReservation_resolves (labels : List String) (db : EntityDB) :
    ∀ l ∈ labels,
      (resolveEntity (onEntityReservation labels db) l).isSome = true := by
  induction labels generalizing db with
  | nil => intro l hl; simp at hl
  | cons a tl ih =>
      intro l hl
      rw [onEntityReservation, List.foldl_cons]
      rcases List.mem_cons.mp hl with rfl | hmem
      · cases hs : (resolveEntity
            (match resolveEntity db l with
              | some _ => db
              | none => reserveEntity db l) l) with
        | some v =>
            have := onEntityReservation_preserves tl _ l v hs
            simp [onEntityReservation] at this
            simp [this]
        | none =>
            have := reservationStep_resolves db l
            rw [hs] at this
            simp at this
      · exact ih _ l hmem

theorem onEntityReservation_of_resolved (labels : List String)
    (db : EntityDB)
    (h : ∀ l ∈ labels, (resolveEntity db l).isSome = true) :
    onEntityReservation labels db = db := by
  induction labels with
  | nil => rfl
  | cons a tl ih =>
      have ha := h a (List.mem_cons_self a tl)
      cases hs : resolveEntity db a with
      | none => rw [hs] at ha; simp at ha
      | some v =>
          rw [onEntityReservation, List.foldl_cons, hs]
          exact ih fun l hl => h l (List.mem_cons_of_mem a hl)

end AMC

/-- C4: the reservation step never reserves a label that already resolves,
so rerunning `onEntityReservation` leaves the set of reserved entities
unchanged (reservation is idempotent) and every processed label keeps the
single stable id the first run gave it. -/
theorem amc_entity_reservation_idempotent (labels : List String)
    (db : AMC.EntityDB) :
    AMC.onEntityReservation labels (AMC.onEntityReservation labels db)
        = AMC.onEntityReservation labels db ∧
    (∀ l ∈ labels,
      (AMC.resolveEntity (AMC.onEntityReservation labels db) l).isSome
        = true) := by
  refine ⟨?_, AMC.onEntityReservation_resolves labels db⟩
  exact AMC.onEntityReservation_of_resolved labels _
    (AMC.onEntityReservation_resolves labels db)

/-- Witness for C4 at the four concrete AMC motor labels and an empty
database. -/
theorem amc_entity_reservation_idempotent_witness :
    AMC.onEntityReservation ["m0", "m1", "m2", "m3"]
        (AMC.onEntityReservation ["m0", "m1", "m2", "m3"] [])
      = AMC.onEntityReservation ["m0", "m1", "m2", "m3"] [] ∧
    (AMC.resolveEntity
        (AMC.onEntityReservation ["m0", "m1", "m2", "m3"] []) "m0").isSome
      = true :=
  ⟨(amc_entity_reservation_idempotent ["m0", "m1", "m2", "m3"] []).1,
   (amc_entity_reservation_idempotent ["m0", "m1", "m2", "m3"] []).2 "m0"
     (by simp)⟩

namespace AMC

/-- Resource-handle state of the AMC task: whether the serial-port object
exists (`m_uart != NULL`, Task.cpp line 81) and whether it is registered
with the I/O multiplexer (`m_poll.add(*m_uart)`, line 195). -/
structure Resources where
  m_uart : Bool
  pollHasUart : Bool
deriving DecidableEq, Repr

/-- `Task::onResourceRelease` of the AMC task (Task.cpp lines 203–213):
when the serial port exists, remove it from the multiplexer, delete it and
null the handle; otherwise do nothing. -/
def onResourceRelease (r : Resources) : Resources :=
  if r.m_uart then { m_uart := false, pollHasUart := false } else r

end AMC

namespace UI2210MGL

/-- Resource-handle state of the camera task: whether the capture object
exists (`m_capture != NULL`, Task.cpp line 94). -/
structure Resources where
  m_capture : Bool
deriving DecidableEq, Repr

/-- `Task::onResourceRelease` of the camera task (Task.cpp lines 198–207):
when the capture object exists, delete it and null the pointer. -/
def onResourceRelease (r : Resources) : Resources :=
  if r.m_capture then { m_capture := false } else r

end UI2210MGL

/-- C6: both `onResourceRelease` handlers are idempotent, and after any call
every resource acquired during ResourceAcquisition is released — for the AMC
task the serial port is out of the multiplexer and the handle is null (given
the acquisition invariant that the port is only registered with the
multiplexer while it exists), and for the camera task the capture pointer is
null. -/
theorem resource_release_idempotent (a : AMC.Resources)
    (c : UI2210MGL.Resources)
    (hinv : a.pollHasUart = true → a.m_uart = true) :
    AMC.onResourceRelease (AMC.onResourceRelease a)
        = AMC.onResourceRelease a ∧
    (AMC.onResourceRelease a).m_uart = false ∧
    (AMC.onResourceRelease a).pollHasUart = false ∧
    UI2210MGL.onResourceRelease (UI2210MGL.onResourceRelease c)
        = UI2210MGL.onResourceRelease c ∧
    (UI2210MGL.onResourceRelease c).m_capture = false := by
  cases hu : a.m_uart with
  | true =>
      cases hc : c.m_capture <;>
        simp [AMC.onResourceRelease, UI2210MGL.onResourceRelease, hu, hc]
  | false =>
      have hp : a.pollHasUart = false := by
        cases hpv : a.pollHasUart with
        | true => rw [hinv hpv] at hu; exact absurd hu (by simp)
        | false => rfl
      cases hc : c.m_capture <;>
        simp [AMC.onResourceRelease, UI2210MGL.onResourceRelease, hu, hp, hc]

/-- Witness for C6: the states right after resource acquisition and
initialization (port allocated and registered; capture allocated). -/
theorem resource_release_idempotent_witness :
    AMC.onResourceRelease (AMC.onResourceRelease ⟨true, true⟩)
        = AMC.onResourceRelease ⟨true, true⟩ ∧
    (AMC.onResourceRelease ⟨true, true⟩).m_uart = false ∧
    (AMC.onResourceRelease ⟨true, true⟩).pollHasUart = false ∧
    UI2210MGL.onResourceRelease (UI2210MGL.onResourceRelease ⟨true⟩)
        = UI2210MGL.onResourceRelease ⟨true⟩ ∧
    (UI2210MGL.onResourceRelease ⟨true⟩).m_capture = false :=
  resource_release_idempotent ⟨true, true⟩ ⟨true⟩ (fun _ => rfl)

namespace UI2210MGL

/-- `AOI` — the area-of-interest record of the camera parameters. -/
structure AOI where
  x : Nat
  y : Nat
  width : Nat
  height : Nat
deriving DecidableEq, Repr

/-- The camera task configuration parameters `onUpdateParameters` reads
(`Arguments`, Task.cpp lines 60–76). -/
structure Arguments where
  fps : Nat
  log_dir : String
  aoi : AOI
  auto_gain : Bool
deriving DecidableEq, Repr

/-- The capture-device settings reachable through the `CaptureUeye`
setters used by `onUpdateParameters`. -/
structure Capture where
  aoi : AOI
  fps : Nat
  auto_gain : Bool
deriving DecidableEq, Repr

/-- The camera task state touched by `onUpdateParameters` (Task.cpp lines
85–94). -/
structure CamTask where
  m_args : Arguments
  m_log_dir : String
  m_starting : Bool
  m_capture : Capture
deriving DecidableEq, Repr

/-- `Task::onUpdateParameters` of the camera task (Task.cpp lines 172–187):
on the first run (`m_starting`, "Flag to allow ignoring the first run") it
only clears the flag and returns; otherwise it copies the log directory and
pushes AOI, FPS and auto-gain to the capture device. -/
def onUpdateParameters (t : CamTask) : CamTask :=
  if t.m_starting then { t with m_starting := false }
  else
    { t with
        m_log_dir := t.m_args.log_dir,
        m_capture :=
          { aoi := t.m_args.aoi, fps := t.m_args.fps,
            auto_gain := t.m_args.auto_gain } }

end UI2210MGL

/-- C7 counterexample: on the startup invocation (`m_starting` true) the
camera task's `onUpdateParameters` applies nothing — with fps parameter 25
and capture still at fps 0, the call leaves the capture fps and the log
directory untouched, refuting "applied on every invocation". -/
theorem camera_update_params_first_run_not_applied :
    (UI2210MGL.onUpdateParameters
        ⟨⟨25, "logdir", ⟨0, 0, 10, 10⟩, true⟩, "", true,
         ⟨⟨0, 0, 0, 0⟩, 0, false⟩⟩).m_capture.fps ≠ 25 ∧
    (UI2210MGL.onUpdateParameters
        ⟨⟨25, "logdir", ⟨0, 0, 10, 10⟩, true⟩, "", true,
         ⟨⟨0, 0, 0, 0⟩, 0, false⟩⟩).m_log_dir ≠ "logdir" := by
  constructor
  · decide
  · simp [UI2210MGL.onUpdateParameters]

/-- C7 as amended: on every invocation of `onUpdateParameters` except the
startup one (i.e. whenever `m_starting` is false), the current
log-directory, area-of-interest, frames-per-second and auto-gain parameter
values are applied to the task state and the capture device. -/
theorem camera_update_params_applied (t : UI2210MGL.CamTask)
    (h : t.m_starting = false) :
    (UI2210MGL.onUpdateParameters t).m_log_dir = t.m_args.log_dir ∧
    (UI2210MGL.onUpdateParameters t).m_capture.aoi = t.m_args.aoi ∧
    (UI2210MGL.onUpdateParameters t).m_capture.fps = t.m_args.fps ∧
    (UI2210MGL.onUpdateParameters t).m_capture.auto_gain
        = t.m_args.auto_gain := by
  simp [UI2210MGL.onUpdateParameters, h]

/-- Witness for amended C7: a second-run invocation applies all four
parameter values. -/
theorem camera_update_params_applied_witness :
    (UI2210MGL.onUpdateParameters
        ⟨⟨25, "logdir", ⟨1, 2, 10, 10⟩, true⟩, "", false,
         ⟨⟨0, 0, 0, 0⟩, 0, false⟩⟩).m_log_dir = "logdir" ∧
    (UI2210MGL.onUpdateParameters
        ⟨⟨25, "logdir", ⟨1, 2, 10, 10⟩, true⟩, "", false,
         ⟨⟨0, 0, 0, 0⟩, 0, false⟩⟩).m_capture.aoi = ⟨1, 2, 10, 10⟩ ∧
    (UI2210MGL.onUpdateParameters
        ⟨⟨25, "logdir", ⟨1, 2, 10, 10⟩, true⟩, "", false,
         ⟨⟨0, 0, 0, 0⟩, 0, false⟩⟩).m_capture.fps = 25 ∧
    (UI2210MGL.onUpdateParameters
        ⟨⟨25, "logdir", ⟨1, 2, 10, 10⟩, true⟩, "", false,
         ⟨⟨0, 0, 0, 0⟩, 0, false⟩⟩).m_capture.auto_gain = true :=
  camera_update_params_applied
    ⟨⟨25, "logdir", ⟨1, 2, 10, 10⟩, true⟩, "", false,
     ⟨⟨0, 0, 0, 0⟩, 0, false⟩⟩ rfl
